import Mathlib

/-!
Verification of the tinySafetyNet repository: a shallow embedding of the
audio-preprocessing, quantization, resource-loading, MQTT-notification and
spreadsheet-export logic of its four Python scripts, together with theorems
settling the specified properties.

Conventions of the embedding:
* Python floats are modelled as rationals.
* NumPy arrays are modelled as lists (or lists of lists for 2-D arrays);
  a tensor carries its shape explicitly.
* Python strings are modelled as Lean strings, except in the directory-walk
  model where the character-list view is used.
* Fallible code is modelled with Except / Option; a call into an external
  library that may raise is modelled by an Except-valued parameter.
-/

/-! ### Quantizer (streamlit-int8-app/app.py, lines 76-82 and 115-118) -/

/-- Embeds numpy.clip: clamp x into the closed interval from lo to hi. -/
def clip (lo hi x : ℚ) : ℚ := max lo (min x hi)

/-- Embeds the float-to-integer conversion performed by the numpy astype cast
to a signed integer type: C-style truncation toward zero. -/
def truncToInt (q : ℚ) : ℤ := if 0 ≤ q then ⌊q⌋ else ⌈q⌉

/-- Embeds the int8 input-quantization step of preprocess_audio:
mel_db = mel_db / scale + zero_point, then np.clip(mel_db, -128, 127)
followed by the astype(np.int8) cast. -/
def quantizeInt8 (scale zeroPoint x : ℚ) : ℤ :=
  truncToInt (clip (-128) 127 (x / scale + zeroPoint))

/-- Embeds the int8 output dequantization of the upload handler:
output = (output.astype(np.float32) - zero_point) * scale. -/
def dequantize (scale zeroPoint : ℚ) (q : ℤ) : ℚ :=
  ((q : ℚ) - zeroPoint) * scale

/-- The quantizer as the specification describes it, for comparison with the
code: identical affine map and clip, but rounding to the nearest integer
instead of the astype truncation. -/
def quantizeInt8RoundSpec (scale zeroPoint x : ℚ) : ℤ :=
  round (clip (-128) 127 (x / scale + zeroPoint))

lemma clip_le_hi {lo hi : ℚ} (x : ℚ) (h : lo ≤ hi) : clip lo hi x ≤ hi := by
  unfold clip
  exact max_le h (min_le_right _ _)

lemma lo_le_clip (lo hi x : ℚ) : lo ≤ clip lo hi x := le_max_left _ _

lemma clip_eq_self {lo hi x : ℚ} (hlo : lo ≤ x) (hhi : x ≤ hi) :
    clip lo hi x = x := by
  unfold clip
  rw [min_eq_left hhi, max_eq_right hlo]

lemma truncToInt_le (q : ℚ) (h : 0 ≤ q) : (truncToInt q : ℚ) ≤ q := by
  unfold truncToInt
  rw [if_pos h]
  exact Int.floor_le q

lemma lt_truncToInt (q : ℚ) (h : 0 ≤ q) : q - 1 < (truncToInt q : ℚ) := by
  unfold truncToInt
  rw [if_pos h]
  exact Int.sub_one_lt_floor q

lemma le_truncToInt (q : ℚ) (h : q < 0) : q ≤ (truncToInt q : ℚ) := by
  unfold truncToInt
  rw [if_neg (not_le.mpr h)]
  exact Int.le_ceil q

lemma truncToInt_lt (q : ℚ) (h : q < 0) : (truncToInt q : ℚ) < q + 1 := by
  unfold truncToInt
  rw [if_neg (not_le.mpr h)]
  exact Int.ceil_lt_add_one q

lemma abs_truncToInt_sub_le (q : ℚ) : |(truncToInt q : ℚ) - q| ≤ 1 := by
  rcases le_or_lt 0 q with h | h
  · have h1 := truncToInt_le q h
    have h2 := lt_truncToInt q h
    rw [abs_le]
    constructor <;> linarith
  · have h1 := le_truncToInt q h
    have h2 := truncToInt_lt q h
    rw [abs_le]
    constructor <;> linarith

/-! ### Waveform peak normalization (streamlit-int8-app/app.py, lines 40-44) -/

/-- Embeds np.max(np.abs(audio)): the largest absolute sample value.
For a nonempty list this equals the true maximum since every absolute value
is nonnegative; numpy rejects empty input, so all theorems about it assume a
nonempty waveform. -/
def peakAbs (l : List ℚ) : ℚ := (l.map (fun x => |x|)).foldl max 0

/-- Embeds the normalization step of preprocess_audio: divide every sample by
the peak absolute value unless that peak is zero. -/
def normalizeWaveform (l : List ℚ) : List ℚ :=
  if 0 < peakAbs l then l.map (fun x => x / peakAbs l) else l

lemma le_foldl_max (l : List ℚ) (a : ℚ) : a ≤ l.foldl max a := by
  induction l generalizing a with
  | nil => exact le_refl a
  | cons x xs ih => exact le_trans (le_max_left a x) (ih (max a x))

lemma mem_le_foldl_max (l : List ℚ) (a x : ℚ) (hx : x ∈ l) :
    x ≤ l.foldl max a := by
  induction l generalizing a with
  | nil => cases hx
  | cons y ys ih =>
    rcases List.mem_cons.mp hx with h | h
    · subst h
      exact le_trans (le_max_right a x) (le_foldl_max ys (max a x))
    · exact ih (max a y) h

lemma peakAbs_nonneg (l : List ℚ) : 0 ≤ peakAbs l := le_foldl_max _ 0

lemma abs_le_peakAbs (l : List ℚ) (x : ℚ) (hx : x ∈ l) : |x| ≤ peakAbs l :=
  mem_le_foldl_max _ 0 _ (List.mem_map_of_mem (fun x => |x|) hx)

lemma foldl_max_eq_zero (l : List ℚ) (hl : ∀ x ∈ l, x = 0) :
    l.foldl max 0 = 0 := by
  induction l with
  | nil => rfl
  | cons x xs ih =>
    have hx : x = 0 := hl x (List.mem_cons_self x xs)
    simp only [List.foldl_cons, hx, max_self]
    exact ih (fun y hy => hl y (List.mem_cons_of_mem x hy))

lemma peakAbs_eq_zero_of_silent (l : List ℚ) (hl : ∀ x ∈ l, x = 0) :
    peakAbs l = 0 := by
  unfold peakAbs
  refine foldl_max_eq_zero _ ?_
  intro x hx
  rcases List.mem_map.mp hx with ⟨y, hy, rfl⟩
  rw [hl y hy, abs_zero]

lemma peakAbs_pos_of_not_silent (l : List ℚ) (hl : ¬ ∀ x ∈ l, x = 0) :
    0 < peakAbs l := by
  rcases (peakAbs_nonneg l).lt_or_eq with h | h
  · exact h
  · exfalso
    refine hl fun x hx => ?_
    have h1 := abs_le_peakAbs l x hx
    rw [← h] at h1
    exact abs_eq_zero.mp (le_antisymm h1 (abs_nonneg x))

lemma foldl_max_div (l : List ℚ) (a m : ℚ) (hm : 0 < m) :
    (l.map (fun x => x / m)).foldl max (a / m) = (l.foldl max a) / m := by
  induction l generalizing a with
  | nil => rfl
  | cons x xs ih =>
    simp only [List.map_cons, List.foldl_cons]
    rw [max_div_div_right hm.le a x]
    exact ih (max a x)

lemma peakAbs_map_div (l : List ℚ) (m : ℚ) (hm : 0 < m) :
    peakAbs (l.map (fun x => x / m)) = peakAbs l / m := by
  unfold peakAbs
  have hmap : (l.map (fun x => x / m)).map (fun x => |x|) =
      (l.map (fun x => |x|)).map (fun x => x / m) := by
    simp only [List.map_map]
    refine List.map_congr_left fun x _ => ?_
    simp only [Function.comp_apply]
    rw [abs_div, abs_of_pos hm]
  rw [hmap, ← zero_div m, foldl_max_div _ _ _ hm, zero_div]

/-! ### Mel pipeline tensor stage (streamlit-int8-app/app.py, lines 55-82)

The librosa mel-spectrogram, power_to_db and tf.image.resize calls are
external library invocations; the embedding therefore starts from the resized
64-by-64 mel-dB matrix they return and covers the in-repository code that
follows: min-max normalization, the NCHW reshape, the shape check against the
expected input shape declared by the model, and int8 quantization. -/

/-- A numeric tensor: an explicit shape together with the flattened data. -/
structure Tensor where
  shape : List Nat
  data : List ℚ
deriving DecidableEq

/-- The epsilon of the min-max normalization, 1e-6 in the source. -/
def EPSILON : ℚ := 1 / 1000000

/-- Embeds ndarray.min over a 2-D array. -/
def matMin (m : List (List ℚ)) : ℚ :=
  match m.flatten with
  | [] => 0
  | x :: xs => xs.foldl min x

/-- Embeds ndarray.max over a 2-D array. -/
def matMax (m : List (List ℚ)) : ℚ :=
  match m.flatten with
  | [] => 0
  | x :: xs => xs.foldl max x

/-- Embeds mel_db = (mel_db - mel_db.min()) / (mel_db.max() - mel_db.min() + 1e-6). -/
def minMaxNorm (m : List (List ℚ)) : List (List ℚ) :=
  m.map (fun row => row.map (fun x => (x - matMin m) / (matMax m - matMin m + EPSILON)))

/-- Embeds mel_db[np.newaxis, np.newaxis, :, :]: the NCHW reshape of a 2-D
array into a rank-4 tensor of shape (1, 1, height, width). -/
def melReshape (m : List (List ℚ)) : Tensor :=
  ⟨[1, 1, m.length, (m.headD []).length], m.flatten⟩

/-- The message of the ValueError raised on a shape mismatch (the source
interpolates the two shapes into the message; the text is abstracted). -/
def shapeMismatchMsg : String := "Input shape mismatch"

/-- Elementwise int8 quantization of a tensor; the quantized int8 values are
represented by the corresponding integer-valued rationals. -/
def quantizeTensor (scale zeroPoint : ℚ) (t : Tensor) : Tensor :=
  ⟨t.shape, t.data.map (fun x => ((quantizeInt8 scale zeroPoint x : ℤ) : ℚ))⟩

/-- Embeds lines 64-82 of preprocess_audio: min-max normalize, reshape to
NCHW, validate the shape against the expected input shape, and only then
quantize when the model input type is int8. A ValueError is an error value. -/
def preprocessMel (expected : List Nat) (inputIsInt8 : Bool) (scale zeroPoint : ℚ)
    (melResized : List (List ℚ)) : Except String Tensor :=
  let t := melReshape (minMaxNorm melResized)
  if t.shape = expected then
    Except.ok (if inputIsInt8 then quantizeTensor scale zeroPoint t else t)
  else
    Except.error shapeMismatchMsg

/-- The preprocessing result fed to the interpreter: inference (set_tensor,
invoke, get_tensor) runs only when preprocessing succeeded, so it is a map
over the Except value. -/
def melPipelineRun (expected : List Nat) (inputIsInt8 : Bool) (scale zeroPoint : ℚ)
    (melResized : List (List ℚ)) (infer : Tensor → List ℚ) : Except String (List ℚ) :=
  (preprocessMel expected inputIsInt8 scale zeroPoint melResized).map infer

/-! ### MFCC pipeline (week1/streamlit-int8-app/app.py, lines 109-143)

librosa.load, librosa.effects.trim and librosa.feature.mfcc are external
calls; the embedding covers the in-repository steps around them: the
pad/truncate of the trimmed waveform to the 3-second target length, the fix
of the MFCC time axis to exactly 130 frames, and the final reshape to
(1, 40, 130, 1). -/

/-- TARGET_LENGTH = int(sample_rate * duration) = int(22050 * 3.0). -/
def TARGET_LENGTH : Nat := 22050 * 3

/-- EXPECTED_FRAMES = 130. -/
def EXPECTED_FRAMES : Nat := 130

/-- The input shape the week1 model declares. Modelled from the spec: the
tflite model file is not part of the sources; per the spec the MFCC variant
feeds a (batch=1, height=40, width=130, channel=1) tensor to the model. -/
def WEEK1_EXPECTED_SHAPE : List Nat := [1, 40, 130, 1]

/-- Embeds lines 120-125: truncate the waveform to TARGET_LENGTH samples when
longer, otherwise append zeros up to TARGET_LENGTH. -/
def padTruncate (y : List ℚ) : List ℚ :=
  if TARGET_LENGTH < y.length then y.take TARGET_LENGTH
  else y ++ List.replicate (TARGET_LENGTH - y.length) 0

/-- Embeds lines 131-137: pad each MFCC row with trailing zeros up to
EXPECTED_FRAMES columns when the current frame count (the length of the
first row, i.e. mfcc.shape[1]) is smaller, otherwise truncate each row to
EXPECTED_FRAMES columns. -/
def fixTimeSteps (m : List (List ℚ)) : List (List ℚ) :=
  let curr := (m.headD []).length
  if curr < EXPECTED_FRAMES then
    m.map (fun r => r ++ List.replicate (EXPECTED_FRAMES - curr) 0)
  else
    m.map (fun r => r.take EXPECTED_FRAMES)

/-- Embeds lines 139-143: fix the time axis, then np.expand_dims on axis 0
and axis -1, producing the rank-4 tensor handed to set_tensor. -/
def mfccTensor (m : List (List ℚ)) : Tensor :=
  let fixed := fixTimeSteps m
  ⟨[1, fixed.length, (fixed.headD []).length, 1], fixed.flatten⟩

/-! ### Resource loading (week1/streamlit-int8-app/app.py, lines 83-104 and 165-168) -/

/-- The hard-coded fallback class array of load_resources. -/
def defaultClasses : List String :=
  ["angry", "disgust", "fear", "happy", "neutral", "sad", "surprise"]

/-- The part of the file system load_resources consults: whether the model
and classes files exist, and the label array stored in the classes file. -/
structure ResourceFS where
  modelExists : Bool
  classesExists : Bool
  classesContent : List String
deriving DecidableEq

/-- What load_resources produced: whether the interpreter was loaded, the
class table (None mirrors the Python None), and the st.error messages shown. -/
structure LoadResult where
  interpreterLoaded : Bool
  classes : Option (List String)
  errorsShown : List String
deriving DecidableEq

/-- Embeds load_resources: classes come from the classes file when it exists
and from the hard-coded fallback otherwise; a missing model file is reported
via st.error and yields (None, None); otherwise the interpreter is loaded. -/
def load_resources (fs : ResourceFS) : LoadResult :=
  let classes := if fs.classesExists then fs.classesContent else defaultClasses
  if fs.modelExists then
    { interpreterLoaded := true, classes := some classes, errorsShown := [] }
  else
    { interpreterLoaded := false, classes := none,
      errorsShown := ["Model file not found!"] }

/-- Embeds the guard of analyze_audio (lines 165-168): when the interpreter
is None an error is shown and nothing further runs; the Bool records whether
the classification pipeline proceeds. -/
def analyzeGate (lr : LoadResult) : Bool × List String :=
  if lr.interpreterLoaded then (true, []) else (false, ["Model not loaded."])

/-! ### Temporary-file cleanup (streamlit-int8-app/app.py lines 100-135 and
week1/streamlit-int8-app/app.py lines 214-218)

The body of each handler is abstracted by an Except value (success or the
exception it raises), as is the os.remove call; the models reproduce the
control flow of the surrounding try/except/finally blocks. -/

/-- Outcome of a handler around the temporary file: whether os.remove was
invoked, the st.error messages shown, and an exception left uncaught (which
the UI surfaces to the user as a crash report). -/
structure CleanupOutcome where
  removeAttempted : Bool
  shownMessages : List String
  uncaught : Option String
deriving DecidableEq

/-- Embeds the upload handler of the mel app: the processing body runs in a
try block whose except clause shows the error, and the finally block calls
os.remove outside any handler, so a deletion failure propagates. -/
def melUploadHandler (body removeResult : Except String Unit) : CleanupOutcome :=
  let shown := match body with
    | Except.ok _ => []
    | Except.error e => ["Error during inference: " ++ e]
  match removeResult with
  | Except.ok _ => ⟨true, shown, none⟩
  | Except.error e => ⟨true, shown, some e⟩

/-- Embeds the cleanup at the end of analyze_audio in the week1 app:
os.remove inside try/except pass, so every deletion failure is swallowed. -/
def analyzeAudioCleanup (removeResult : Except String Unit) : CleanupOutcome :=
  match removeResult with
  | Except.ok _ => ⟨true, [], none⟩
  | Except.error _ => ⟨true, [], none⟩

/-! ### MQTT notifier (week1/streamlit-int8-app/app.py, lines 54-78 and 184-209) -/

/-- CONFIG mqtt_topic. -/
def MQTT_TOPIC : String := "tinyml/anshika/badge"

/-- The publish call as issued: topic, payload, qos, and the bound passed to
wait_for_publish. -/
structure PublishRequest where
  topic : String
  payload : String
  qos : Nat
  waitTimeout : ℚ
deriving DecidableEq

/-- Environment behavior of the paho client during one send_to_wokwi call:
for each client operation, None when it completes and the message of the
exception it raises otherwise. -/
structure MqttEnv where
  connectErr : Option String
  publishErr : Option String
  waitErr : Option String
  loopStopErr : Option String
  disconnectErr : Option String
deriving DecidableEq

/-- Result of send_to_wokwi: the returned Bool, the publish call that was
issued (None when connect already failed), and the st.error messages shown. -/
structure SendOutcome where
  returned : Bool
  request : Option PublishRequest
  errorsShown : List String
deriving DecidableEq

/-- The st.error text of the except clause of send_to_wokwi. -/
def mqttErrorMsg (e : String) : String := "MQTT Error: " ++ e

/-- Embeds send_to_wokwi: connect, loop_start, publish with qos=1, a blocking
wait_for_publish bounded by 2.0 seconds, loop_stop, disconnect, then return
True; the enclosing try/except catches any exception, shows it via st.error
and returns False. The whole body is inside the try block, so the function
itself never raises, which the Bool-valued codomain reflects. -/
def send_to_wokwi (env : MqttEnv) (command : String) : SendOutcome :=
  match env.connectErr with
  | some e => ⟨false, none, [mqttErrorMsg e]⟩
  | none =>
    let req : PublishRequest := ⟨MQTT_TOPIC, command, 1, 2⟩
    match env.publishErr with
    | some e => ⟨false, some req, [mqttErrorMsg e]⟩
    | none =>
      match env.waitErr with
      | some e => ⟨false, some req, [mqttErrorMsg e]⟩
      | none =>
        match env.loopStopErr with
        | some e => ⟨false, some req, [mqttErrorMsg e]⟩
        | none =>
          match env.disconnectErr with
          | some e => ⟨false, some req, [mqttErrorMsg e]⟩
          | none => ⟨true, some req, []⟩

/-- What analyze_audio renders after classification: the safety status and
command, the outcome of the notification, and the result block (emotion and
markdown) that lines 202-204 display unconditionally. -/
structure AnalyzeOutcome where
  status : String
  mqttCmd : String
  request : Option PublishRequest
  sent : Bool
  emotionShown : Option String
  sendFailureShown : Bool
deriving DecidableEq

/-- Embeds lines 184-209 of analyze_audio: derive the safety status and the
single-character command from the emotion, call send_to_wokwi, then display
the result; on a failed send an error is shown but the result block is
rendered all the same. -/
def analyzeNotify (env : MqttEnv) (emotion : String) : AnalyzeOutcome :=
  let triple : String × String × String :=
    if emotion = "fear" then ("DANGER", "red", "D")
    else if emotion = "angry" then ("CAUTION", "orange", "C")
    else ("SAFE", "green", "S")
  let outcome := send_to_wokwi env triple.2.2
  { status := triple.1, mqttCmd := triple.2.2, request := outcome.request,
    sent := outcome.returned, emotionShown := some emotion,
    sendFailureShown := !outcome.returned }

/-! ### Batch spreadsheet export (Shiny-R/Convert dataset to excel.py)

The script walks a directory tree with os.walk, sorting the subdirectory and
file listings at every level, and appends one spreadsheet row per file whose
lowercased name ends in ".wav". Python strings are modelled here as lists of
characters. The time column records current_time.strftime with the
hour-minute-second format, modelled as the second-of-day value (seconds since
midnight modulo 86400); current_time itself starts at 09:00:00 and advances
3 seconds per row. -/

/-- Python strings of the walk model: lists of characters. -/
abbrev PyStr := List Char

/-- Python < on strings: lexicographic comparison by code point. -/
def strLT : PyStr → PyStr → Bool
  | [], [] => false
  | [], _ :: _ => true
  | _ :: _, [] => false
  | a :: as, b :: bs => if a < b then true else if b < a then false else strLT as bs

/-- Python <= on strings, as used by list.sort. -/
def strLE (a b : PyStr) : Bool := !(strLT b a)

/-- Stable insertion of an element into a sorted list. -/
def insertSorted (le : α → α → Bool) (x : α) : List α → List α
  | [] => [x]
  | y :: ys => if le x y then x :: y :: ys else y :: insertSorted le x ys

/-- Stable sort by a boolean comparison; models list.sort / sorted in Python
(any stable comparison sort computes the same list). -/
def sortBy (le : α → α → Bool) (l : List α) : List α := l.foldr (insertSorted le) []

lemma length_insertSorted (le : α → α → Bool) (x : α) (l : List α) :
    (insertSorted le x l).length = l.length + 1 := by
  induction l with
  | nil => rfl
  | cons y ys ih =>
    unfold insertSorted
    by_cases h : le x y = true
    · rw [if_pos h]
      rfl
    · rw [if_neg h]
      simp [ih]

lemma length_sortBy (le : α → α → Bool) (l : List α) :
    (sortBy le l).length = l.length := by
  induction l with
  | nil => rfl
  | cons x xs ih =>
    show (insertSorted le x (sortBy le xs)).length = xs.length + 1
    rw [length_insertSorted, ih]

lemma mem_insertSorted (le : α → α → Bool) (x a : α) (l : List α) :
    a ∈ insertSorted le x l ↔ a = x ∨ a ∈ l := by
  induction l with
  | nil => simp [insertSorted]
  | cons y ys ih =>
    unfold insertSorted
    by_cases h : le x y = true
    · rw [if_pos h]
      exact List.mem_cons
    · rw [if_neg h]
      simp only [List.mem_cons, ih]
      tauto

lemma mem_sortBy (le : α → α → Bool) (a : α) (l : List α) :
    a ∈ sortBy le l ↔ a ∈ l := by
  induction l with
  | nil => exact Iff.rfl
  | cons x xs ih =>
    show a ∈ insertSorted le x (sortBy le xs) ↔ _
    rw [mem_insertSorted, ih]
    simp

/-- A directory tree: the directory basename, the regular files it contains,
and its subdirectories. -/
inductive DirTree where
  | mk (name : PyStr) (files : List PyStr) (subdirs : List DirTree)

def DirTree.name : DirTree → PyStr
  | mk n _ _ => n

def DirTree.files : DirTree → List PyStr
  | mk _ fs _ => fs

def DirTree.subdirs : DirTree → List DirTree
  | mk _ _ ds => ds

mutual
/-- Recursively sort a directory tree: files by name, subdirectories by name.
Sorting the subdirectory list models the dirs.sort() call that fixes the
order in which os.walk descends; since the recursive pass preserves names and
the sort is stable, sorting after the recursive pass equals the sort os.walk
performs level by level during the traversal. -/
def sortTree : DirTree → DirTree
  | .mk n fs ds =>
    .mk n (sortBy strLE fs) (sortBy (fun a b => strLE a.name b.name) (sortTreeList ds))
def sortTreeList : List DirTree → List DirTree
  | [] => []
  | d :: ds => sortTree d :: sortTreeList ds
end

mutual
/-- Top-down pre-order traversal: yield the files of a directory (paired with
the basename of the directory that contains them), then descend into the
subdirectories in order, exactly as the os.walk loop consumes them. -/
def walkPre : DirTree → List (PyStr × PyStr)
  | .mk n fs ds => fs.map (fun f => (n, f)) ++ walkPreList ds
def walkPreList : List DirTree → List (PyStr × PyStr)
  | [] => []
  | d :: ds => walkPre d ++ walkPreList ds
end

/-- os.walk with dirs.sort() and files.sort() at every level: the pre-order
traversal of the sorted tree. -/
def walk (d : DirTree) : List (PyStr × PyStr) := walkPre (sortTree d)

/-- Embeds file.lower().endswith(".wav"). -/
def wavCheck (f : PyStr) : Bool := decide (".wav".data <:+ f.map Char.toLower)

/-- Embeds str.split with a single-character separator. -/
def splitOnChar (c : Char) (l : PyStr) : List PyStr :=
  l.foldr (fun x acc => if x = c then [] :: acc else (x :: acc.headD []) :: acc.tail) [[]]

/-- Embeds os.path.basename(root).split("_")[-1]: the emotion label derived
from the directory basename. -/
def emotionOf (dirname : PyStr) : PyStr := (splitOnChar '_' dirname).getLastD []

/-- One spreadsheet row: id, the time column (the strftime second-of-day
value) and the inferred emotion. -/
structure Row where
  id : Nat
  time : Nat
  emotion : PyStr
deriving DecidableEq

/-- datetime.strptime 09:00:00 as seconds since midnight. -/
def START_TIME : Nat := 9 * 3600

/-- TIME_GAP = 3 seconds between recordings. -/
def TIME_GAP : Nat := 3

/-- The loop state: rows accumulated so far, current_time in absolute seconds
(the datetime keeps counting past midnight), and the next audio_id. -/
structure ExportState where
  rows : List Row
  currentTime : Nat
  audioId : Nat

/-- Embeds the body of the os.walk loop for one file: a row is appended only
for names whose lowercase form ends in ".wav"; its time column is the
formatted time of day and afterwards current_time and audio_id advance. -/
def exportStep (st : ExportState) (p : PyStr × PyStr) : ExportState :=
  if wavCheck p.2 then
    { rows := st.rows ++ [⟨st.audioId, st.currentTime % 86400, emotionOf p.1⟩],
      currentTime := st.currentTime + TIME_GAP,
      audioId := st.audioId + 1 }
  else st

/-- The rows of the generated spreadsheet, in order. -/
def exportRows (d : DirTree) : List Row :=
  ((walk d).foldl exportStep ⟨[], START_TIME, 1⟩).rows

/-- The time column of the generated spreadsheet, in row order. -/
def timesOf (d : DirTree) : List Nat := (exportRows d).map Row.time

/-- Closed form of the row-emitting loop on an already filtered list of
(directory, file) pairs: row ids count up from n, times advance by TIME_GAP
from t and are recorded modulo one day. -/
def rowsSeq (n t : Nat) : List (PyStr × PyStr) → List Row
  | [] => []
  | p :: ps => ⟨n, t % 86400, emotionOf p.1⟩ :: rowsSeq (n + 1) (t + TIME_GAP) ps

lemma foldl_exportStep_rows (l : List (PyStr × PyStr)) :
    ∀ (rs : List Row) (t n : Nat),
      ((l.foldl exportStep ⟨rs, t, n⟩).rows) =
        rs ++ rowsSeq n t (l.filter (fun p => wavCheck p.2)) := by
  induction l with
  | nil => intro rs t n; simp [rowsSeq]
  | cons p ps ih =>
    intro rs t n
    by_cases h : wavCheck p.2 = true
    · simp only [List.foldl_cons, exportStep, if_pos h, List.filter_cons, h]
      rw [ih]
      simp [rowsSeq]
    · have hf : wavCheck p.2 = false := by
        cases hw : wavCheck p.2
        · rfl
        · exact absurd hw h
      simp only [List.foldl_cons, exportStep, if_neg h, List.filter_cons, hf]
      rw [ih]
      simp

lemma exportRows_eq (d : DirTree) :
    exportRows d = rowsSeq 1 START_TIME ((walk d).filter (fun p => wavCheck p.2)) := by
  unfold exportRows
  rw [foldl_exportStep_rows]
  simp

lemma length_rowsSeq (l : List (PyStr × PyStr)) : ∀ n t, (rowsSeq n t l).length = l.length := by
  induction l with
  | nil => intro n t; rfl
  | cons p ps ih =>
    intro n t
    simp only [rowsSeq, List.length_cons, ih]

lemma rowsSeq_get? (l : List (PyStr × PyStr)) :
    ∀ (n t i : Nat) (p : PyStr × PyStr), l.get? i = some p →
      (rowsSeq n t l).get? i = some ⟨n + i, (t + TIME_GAP * i) % 86400, emotionOf p.1⟩ := by
  induction l with
  | nil => intro n t i p h; cases h
  | cons q qs ih =>
    intro n t i p h
    cases i with
    | zero =>
      cases h
      simp [rowsSeq]
    | succ j =>
      have hj : qs.get? j = some p := h
      have := ih (n + 1) (t + TIME_GAP) j p hj
      simp only [rowsSeq, List.get?_cons_succ]
      rw [this]
      congr 2
      · omega
      · congr 1
        ring

lemma rowsSeq_time_get? (l : List (PyStr × PyStr)) :
    ∀ (n t i : Nat), i < l.length →
      ((rowsSeq n t l).map Row.time).get? i = some ((t + TIME_GAP * i) % 86400) := by
  induction l with
  | nil => intro n t i h; cases h
  | cons q qs ih =>
    intro n t i h
    cases i with
    | zero => simp [rowsSeq]
    | succ j =>
      have hj : j < qs.length := by
        simpa [Nat.succ_lt_succ_iff] using h
      have := ih (n + 1) (t + TIME_GAP) j hj
      simp only [rowsSeq, List.map_cons, List.get?_cons_succ]
      rw [this]
      congr 1
      ring_nf

/-! ## Claim theorems -/

lemma truncToInt_bounds (q : ℚ) (lo hi : ℤ) (hlo : (lo : ℚ) ≤ q) (hhi : q ≤ (hi : ℚ)) :
    lo ≤ truncToInt q ∧ truncToInt q ≤ hi := by
  unfold truncToInt
  by_cases h : 0 ≤ q
  · rw [if_pos h]
    constructor
    · calc lo = ⌊(lo : ℚ)⌋ := (Int.floor_intCast lo).symm
        _ ≤ ⌊q⌋ := Int.floor_mono hlo
    · calc ⌊q⌋ ≤ ⌊(hi : ℚ)⌋ := Int.floor_mono hhi
        _ = hi := Int.floor_intCast hi
  · rw [if_neg h]
    constructor
    · calc lo = ⌈(lo : ℚ)⌉ := (Int.ceil_intCast lo).symm
        _ ≤ ⌈q⌉ := Int.ceil_mono hlo
    · calc ⌈q⌉ ≤ ⌈(hi : ℚ)⌉ := Int.ceil_mono hhi
        _ = hi := Int.ceil_intCast hi

/-- C1 counterexample: at scale 1, zero point 0, input value 7/10 the affine
image is 7/10; the code casts it to 0 (truncation toward zero) whereas
rounding to the nearest integer, as the claim states, gives 1. -/
theorem c1_no_rounding_counterexample :
    quantizeInt8 1 0 (7/10) = 0 ∧ quantizeInt8RoundSpec 1 0 (7/10) = 1 := by
  constructor
  · norm_num [quantizeInt8, clip, truncToInt, max_def, min_def]
  · norm_num [quantizeInt8RoundSpec, clip, round_eq, max_def, min_def]

/-- C1 (amended): for every float input, when the model input type is int8
the quantizer computes value / scale + zero_point, clips the result to
[-128, 127], and converts it to int8 by truncation toward zero (dropping the
fractional part, the numpy astype cast), not by rounding to the nearest
integer; the result always lies in [-128, 127]. -/
theorem c1_quantizer_clips_and_truncates (scale zeroPoint x : ℚ) :
    -128 ≤ quantizeInt8 scale zeroPoint x ∧
    quantizeInt8 scale zeroPoint x ≤ 127 ∧
    (0 ≤ clip (-128) 127 (x / scale + zeroPoint) →
      (quantizeInt8 scale zeroPoint x : ℚ) ≤ clip (-128) 127 (x / scale + zeroPoint) ∧
      clip (-128) 127 (x / scale + zeroPoint) - 1 < (quantizeInt8 scale zeroPoint x : ℚ)) ∧
    (clip (-128) 127 (x / scale + zeroPoint) < 0 →
      clip (-128) 127 (x / scale + zeroPoint) ≤ (quantizeInt8 scale zeroPoint x : ℚ) ∧
      (quantizeInt8 scale zeroPoint x : ℚ) < clip (-128) 127 (x / scale + zeroPoint) + 1) := by
  have hy_lo : (-128 : ℚ) ≤ clip (-128) 127 (x / scale + zeroPoint) := lo_le_clip _ _ _
  have hy_hi : clip (-128) 127 (x / scale + zeroPoint) ≤ 127 :=
    clip_le_hi _ (by norm_num)
  have hb := truncToInt_bounds (clip (-128) 127 (x / scale + zeroPoint)) (-128) 127
    (by exact_mod_cast hy_lo) (by exact_mod_cast hy_hi)
  refine ⟨hb.1, hb.2, fun h => ⟨truncToInt_le _ h, lt_truncToInt _ h⟩,
    fun h => ⟨le_truncToInt _ h, truncToInt_lt _ h⟩⟩

/-- C1 witness: instantiation of the amended theorem at scale 1, zero point 0
and input 7/10, whose clipped affine image is nonnegative. -/
theorem c1_witness :
    -128 ≤ quantizeInt8 1 0 (7/10) ∧
    (quantizeInt8 1 0 (7/10) : ℚ) ≤ clip (-128) 127 ((7/10) / 1 + 0) :=
  ⟨(c1_quantizer_clips_and_truncates 1 0 (7/10)).1,
   ((c1_quantizer_clips_and_truncates 1 0 (7/10)).2.2.1
     (by norm_num [clip, max_def, min_def])).1⟩

/-- C2 counterexample: with scale 1 and zero point 0 the value 1000 is
clipped to 127, dequantizes back to 127, and so is not recovered within one
quantization step (one scale unit). -/
theorem c2_roundtrip_counterexample :
    dequantize 1 0 (quantizeInt8 1 0 1000) = 127 ∧
    ¬ |dequantize 1 0 (quantizeInt8 1 0 1000) - 1000| ≤ 1 := by
  have h : quantizeInt8 1 0 1000 = 127 := by
    norm_num [quantizeInt8, clip, truncToInt, max_def, min_def]
  rw [h]
  norm_num [dequantize]

/-- C2 (amended): quantize-dequantize round trips recover the value within
one quantization step (one scale unit) whenever the affine image
value / scale + zero_point lies inside the representable range [-128, 127];
outside that range the clip loses the value, as the counterexample shows. -/
theorem c2_roundtrip_within_range (scale zeroPoint x : ℚ) (hs : 0 < scale)
    (hlo : -128 ≤ x / scale + zeroPoint) (hhi : x / scale + zeroPoint ≤ 127) :
    |dequantize scale zeroPoint (quantizeInt8 scale zeroPoint x) - x| ≤ scale := by
  have hclip : clip (-128) 127 (x / scale + zeroPoint) = x / scale + zeroPoint :=
    clip_eq_self hlo hhi
  have hq : quantizeInt8 scale zeroPoint x = truncToInt (x / scale + zeroPoint) := by
    rw [quantizeInt8, hclip]
  have hxs : x / scale * scale = x := div_mul_cancel₀ _ (ne_of_gt hs)
  have key : ((truncToInt (x / scale + zeroPoint) : ℚ) - (x / scale + zeroPoint)) * scale =
      ((truncToInt (x / scale + zeroPoint) : ℚ) - zeroPoint) * scale - x := by
    calc ((truncToInt (x / scale + zeroPoint) : ℚ) - (x / scale + zeroPoint)) * scale
        = ((truncToInt (x / scale + zeroPoint) : ℚ) - zeroPoint) * scale -
            (x / scale * scale) := by ring
      _ = ((truncToInt (x / scale + zeroPoint) : ℚ) - zeroPoint) * scale - x := by rw [hxs]
  calc |dequantize scale zeroPoint (quantizeInt8 scale zeroPoint x) - x|
      = |((truncToInt (x / scale + zeroPoint) : ℚ) - (x / scale + zeroPoint)) * scale| := by
        rw [hq, dequantize, key]
    _ = |(truncToInt (x / scale + zeroPoint) : ℚ) - (x / scale + zeroPoint)| * scale := by
        rw [abs_mul, abs_of_pos hs]
    _ ≤ 1 * scale :=
        mul_le_mul_of_nonneg_right (abs_truncToInt_sub_le _) hs.le
    _ = scale := one_mul scale

/-- C2 witness: instantiation of the amended round-trip bound at scale 1,
zero point 0 and value 1/2, which lies inside the representable range. -/
theorem c2_witness :
    (0 : ℚ) < 1 ∧ |dequantize 1 0 (quantizeInt8 1 0 (1/2)) - 1/2| ≤ 1 :=
  ⟨by norm_num,
   c2_roundtrip_within_range 1 0 (1/2) (by norm_num) (by norm_num) (by norm_num)⟩

/-- C9: for every nonempty waveform (numpy rejects an empty array), after
peak normalization the recomputed peak absolute value is exactly 1, or 0
when the original waveform was silent, in which case normalization was a
no-op. -/
theorem c9_peak_normalization (l : List ℚ) (hne : l ≠ []) :
    ((∀ x ∈ l, x = 0) → normalizeWaveform l = l ∧ peakAbs (normalizeWaveform l) = 0) ∧
    ((¬ ∀ x ∈ l, x = 0) → peakAbs (normalizeWaveform l) = 1) := by
  constructor
  · intro hsilent
    have h0 : peakAbs l = 0 := peakAbs_eq_zero_of_silent l hsilent
    have hid : normalizeWaveform l = l := by
      unfold normalizeWaveform
      rw [if_neg]
      rw [h0]
      exact lt_irrefl 0
    exact ⟨hid, by rw [hid, h0]⟩
  · intro h
    have hpos := peakAbs_pos_of_not_silent l h
    unfold normalizeWaveform
    rw [if_pos hpos, peakAbs_map_div l _ hpos, div_self (ne_of_gt hpos)]

/-- C9 witness: instantiation at the two-sample waveform 2, 0, which is
nonempty and not silent. -/
theorem c9_witness :
    ([(2 : ℚ), 0] ≠ []) ∧ peakAbs (normalizeWaveform [(2 : ℚ), 0]) = 1 :=
  ⟨by simp,
   (c9_peak_normalization [(2 : ℚ), 0] (by simp)).2 (by
     intro hall
     have := hall 2 (List.mem_cons_self 2 [0])
     norm_num at this)⟩

lemma fixTimeSteps_row_length (m : List (List ℚ))
    (hrect : ∀ r ∈ m, r.length = (m.headD []).length) :
    ∀ r ∈ fixTimeSteps m, r.length = EXPECTED_FRAMES := by
  intro r hr
  simp only [fixTimeSteps] at hr
  by_cases h : (m.headD []).length < EXPECTED_FRAMES
  · rw [if_pos h] at hr
    rcases List.mem_map.mp hr with ⟨r0, hr0, rfl⟩
    rw [List.length_append, List.length_replicate, hrect r0 hr0]
    omega
  · rw [if_neg h] at hr
    rcases List.mem_map.mp hr with ⟨r0, hr0, rfl⟩
    rw [List.length_take, hrect r0 hr0]
    omega

lemma fixTimeSteps_length (m : List (List ℚ)) :
    (fixTimeSteps m).length = m.length := by
  simp only [fixTimeSteps]
  split <;> rw [List.length_map]

lemma mfccTensor_shape (mf : List (List ℚ)) (h40 : mf.length = 40)
    (hrect : ∀ r ∈ mf, r.length = (mf.headD []).length) :
    (mfccTensor mf).shape = WEEK1_EXPECTED_SHAPE := by
  have hlen : (fixTimeSteps mf).length = 40 := by
    rw [fixTimeSteps_length, h40]
  have hhead : ((fixTimeSteps mf).headD []).length = 130 := by
    cases hfe : fixTimeSteps mf with
    | nil =>
      rw [hfe] at hlen
      cases hlen
    | cons a as =>
      have ha : a ∈ fixTimeSteps mf := by
        rw [hfe]
        exact List.mem_cons_self a as
      have := fixTimeSteps_row_length mf hrect a ha
      simpa [EXPECTED_FRAMES] using this
  simp only [mfccTensor, WEEK1_EXPECTED_SHAPE, hlen, hhead]

/-- C3: the mel pipeline validates the tensor shape against the expected
input shape the model declares and raises the shape-mismatch ValueError
before the int8 quantization step runs and before inference runs (the error
does not depend on the quantization inputs, and the inference stage receives
only the error); any tensor it hands over has exactly the expected shape.
The MFCC pipeline always produces the (1, 40, 130, 1) tensor the week1 model
declares, for every rectangular 40-row MFCC matrix. -/
theorem c3_shape_validation (expected : List Nat) (b b' : Bool) (s z s' z' : ℚ)
    (m mf : List (List ℚ)) (u : Tensor) (infer : Tensor → List ℚ)
    (h40 : mf.length = 40)
    (hrect : ∀ r ∈ mf, r.length = (mf.headD []).length) :
    (preprocessMel expected b s z m = Except.ok u → u.shape = expected) ∧
    ((melReshape (minMaxNorm m)).shape ≠ expected →
      preprocessMel expected b s z m = Except.error shapeMismatchMsg ∧
      preprocessMel expected b s z m = preprocessMel expected b' s' z' m ∧
      melPipelineRun expected b s z m infer = Except.error shapeMismatchMsg) ∧
    (mfccTensor mf).shape = WEEK1_EXPECTED_SHAPE := by
  refine ⟨?_, ?_, mfccTensor_shape mf h40 hrect⟩
  · intro h
    simp only [preprocessMel] at h
    by_cases hs : (melReshape (minMaxNorm m)).shape = expected
    · rw [if_pos hs] at h
      injection h with h
      subst h
      cases b
      · exact hs
      · simpa [quantizeTensor] using hs
    · rw [if_neg hs] at h
      cases h
  · intro hne
    have h1 : preprocessMel expected b s z m = Except.error shapeMismatchMsg := by
      simp only [preprocessMel]
      rw [if_neg hne]
    have h2 : preprocessMel expected b' s' z' m = Except.error shapeMismatchMsg := by
      simp only [preprocessMel]
      rw [if_neg hne]
    refine ⟨h1, h1.trans h2.symm, ?_⟩
    simp only [melPipelineRun, h1]
    rfl

/-- C3 witness: with an expected shape of (1, 1, 2, 2) the mel stage accepts
a 2-by-2 matrix, and a rectangular 40-row, 130-column MFCC matrix yields the
declared (1, 40, 130, 1) shape. -/
theorem c3_witness :
    ((List.replicate 40 (List.replicate 130 (0 : ℚ))).length = 40) ∧
    (mfccTensor (List.replicate 40 (List.replicate 130 (0 : ℚ)))).shape =
      WEEK1_EXPECTED_SHAPE :=
  ⟨by simp,
   (c3_shape_validation [1, 1, 2, 2] true true 1 0 1 0 [[0, 0], [0, 0]]
      (List.replicate 40 (List.replicate 130 (0 : ℚ))) ⟨[], []⟩ (fun _ => [])
      (by simp)
      (by
        intro r hr
        rcases List.eq_of_mem_replicate hr with rfl
        simp)).2.2⟩

/-- C4: the pad/truncate step always outputs exactly TARGET_LENGTH samples;
when the trimmed waveform has at least TARGET_LENGTH samples the output is
its first TARGET_LENGTH samples, and when it is shorter the output appends
zeros, leaving the original samples unchanged in their original positions.
Analogously the MFCC time axis is padded with trailing zeros or truncated so
that every row has exactly EXPECTED_FRAMES = 130 frames. -/
theorem c4_pad_truncate (y : List ℚ) (m : List (List ℚ))
    (hrect : ∀ r ∈ m, r.length = (m.headD []).length) :
    (padTruncate y).length = TARGET_LENGTH ∧
    (TARGET_LENGTH ≤ y.length → padTruncate y = y.take TARGET_LENGTH) ∧
    (y.length < TARGET_LENGTH →
      padTruncate y = y ++ List.replicate (TARGET_LENGTH - y.length) 0 ∧
      (padTruncate y).take y.length = y) ∧
    (∀ r ∈ fixTimeSteps m, r.length = EXPECTED_FRAMES) ∧
    ((m.headD []).length < EXPECTED_FRAMES →
      fixTimeSteps m =
        m.map (fun r => r ++ List.replicate (EXPECTED_FRAMES - (m.headD []).length) 0)) := by
  refine ⟨?_, ?_, ?_, fixTimeSteps_row_length m hrect, ?_⟩
  · unfold padTruncate
    by_cases h : TARGET_LENGTH < y.length
    · rw [if_pos h, List.length_take]
      omega
    · rw [if_neg h, List.length_append, List.length_replicate]
      omega
  · intro h
    unfold padTruncate
    by_cases h2 : TARGET_LENGTH < y.length
    · rw [if_pos h2]
    · have he : y.length = TARGET_LENGTH := le_antisymm (le_of_not_lt h2) h
      rw [if_neg h2, he, Nat.sub_self, List.replicate_zero, List.append_nil,
        ← he, List.take_length]
  · intro h
    have hn : ¬ TARGET_LENGTH < y.length := by omega
    constructor
    · unfold padTruncate
      rw [if_neg hn]
    · unfold padTruncate
      rw [if_neg hn, List.take_left]
  · intro h
    simp only [fixTimeSteps]
    rw [if_pos h]

/-- C4 witness: instantiation at a two-sample waveform (shorter than the
target length) and a rectangular two-row matrix. -/
theorem c4_witness :
    (∀ r ∈ [[(1 : ℚ)], [2]], r.length = (([[(1 : ℚ)], [2]]).headD []).length) ∧
    (padTruncate [(1 : ℚ), 2]).length = TARGET_LENGTH :=
  ⟨by simp, (c4_pad_truncate [(1 : ℚ), 2] [[1], [2]] (by simp)).1⟩

/-- C6 counterexample: with the model file present but the label file
absent, load_resources reports nothing (no st.error), silently substitutes
the hard-coded default class table, and the pipeline proceeds; the claim
that a missing label file is reported and halts the session is false. -/
theorem c6_label_fallback_counterexample :
    load_resources ⟨true, false, []⟩ = ⟨true, some defaultClasses, []⟩ ∧
    analyzeGate (load_resources ⟨true, false, []⟩) = (true, []) :=
  ⟨rfl, rfl⟩

/-- C6 (amended): if the model file is absent at load time this is reported
to the user and the classification pipeline halts for the session (the
analyze action shows an error and attempts no inference); if only the label
file is absent, a built-in default label table is silently substituted and
the pipeline continues. -/
theorem c6_missing_files (fs : ResourceFS) :
    (fs.modelExists = false →
      load_resources fs = ⟨false, none, ["Model file not found!"]⟩ ∧
      analyzeGate (load_resources fs) = (false, ["Model not loaded."])) ∧
    (fs.modelExists = true → fs.classesExists = false →
      load_resources fs = ⟨true, some defaultClasses, []⟩ ∧
      analyzeGate (load_resources fs) = (true, [])) := by
  obtain ⟨me, ce, cc⟩ := fs
  constructor
  · rintro rfl
    exact ⟨rfl, rfl⟩
  · rintro rfl rfl
    exact ⟨rfl, rfl⟩

/-- C6 witness: instantiations at a file system missing the model file and
at one missing only the label file. -/
theorem c6_witness :
    load_resources ⟨false, true, ["a"]⟩ = ⟨false, none, ["Model file not found!"]⟩ ∧
    load_resources ⟨true, false, ["a"]⟩ = ⟨true, some defaultClasses, []⟩ :=
  ⟨((c6_missing_files ⟨false, true, ["a"]⟩).1 rfl).1,
   ((c6_missing_files ⟨true, false, ["a"]⟩).2 rfl rfl).1⟩

/-- C7 counterexample: in the mel app the upload handler deletes the
temporary file in a bare finally block, so when os.remove raises the
exception escapes uncaught and surfaces to the user; the claim that a
deletion failure is silently ignored in every handler is false. -/
theorem c7_deletion_surfaces_counterexample :
    melUploadHandler (Except.ok ()) (Except.error "PermissionError") =
      ⟨true, [], some "PermissionError"⟩ :=
  rfl

/-- C7 (amended): after every processing attempt, success or failure, both
handlers attempt to delete the temporary file; the week1 analyze handler
swallows any deletion failure silently (try/except pass), while the mel
upload handler lets a deletion failure propagate uncaught out of its finally
block, so there it can surface to the user. -/
theorem c7_cleanup (body removeResult : Except String Unit) :
    (melUploadHandler body removeResult).removeAttempted = true ∧
    (analyzeAudioCleanup removeResult).removeAttempted = true ∧
    (analyzeAudioCleanup removeResult).uncaught = none ∧
    (analyzeAudioCleanup removeResult).shownMessages = [] ∧
    ((melUploadHandler body removeResult).uncaught = none ↔
      removeResult.isOk = true) := by
  cases removeResult <;> cases body <;>
    simp [melUploadHandler, analyzeAudioCleanup, Except.isOk, Except.toBool]

/-- C7 witness: instantiation at a successful body and a failing deletion. -/
theorem c7_witness :
    (analyzeAudioCleanup (Except.error "PermissionError")).uncaught = none :=
  (c7_cleanup (Except.ok ()) (Except.error "PermissionError")).2.2.1

/-- C8: the notifier publishes exactly one of the three fixed codes, D for
fear, C for angry, S otherwise; whenever the connection is established the
publish call carries qos 1 and a 2-second wait_for_publish bound; and when
the send fails the failure is reported while the already-computed
classification result is still rendered unchanged. -/
theorem c8_notifier (env : MqttEnv) (emotion : String) :
    ((analyzeNotify env emotion).mqttCmd = "D" ∨
      (analyzeNotify env emotion).mqttCmd = "C" ∨
      (analyzeNotify env emotion).mqttCmd = "S") ∧
    (emotion = "fear" → (analyzeNotify env emotion).mqttCmd = "D") ∧
    (emotion = "angry" → (analyzeNotify env emotion).mqttCmd = "C") ∧
    (emotion ≠ "fear" → emotion ≠ "angry" →
      (analyzeNotify env emotion).mqttCmd = "S") ∧
    (env.connectErr = none →
      (analyzeNotify env emotion).request =
        some ⟨MQTT_TOPIC, (analyzeNotify env emotion).mqttCmd, 1, 2⟩) ∧
    (analyzeNotify env emotion).emotionShown = some emotion ∧
    ((analyzeNotify env emotion).sent = false →
      (analyzeNotify env emotion).sendFailureShown = true ∧
      (analyzeNotify env emotion).emotionShown = some emotion) := by
  obtain ⟨c, p, w, ls, dc⟩ := env
  refine ⟨?_, ?_, ?_, ?_, ?_, rfl, ?_⟩
  · by_cases h1 : emotion = "fear"
    · left
      simp [analyzeNotify, h1]
    · by_cases h2 : emotion = "angry"
      · right; left
        simp [analyzeNotify, h1, h2]
      · right; right
        simp [analyzeNotify, h1, h2]
  · intro h
    simp [analyzeNotify, h]
  · intro h
    have hf : emotion ≠ "fear" := by
      rw [h]
      decide
    simp [analyzeNotify, hf, h]
  · intro h1 h2
    simp [analyzeNotify, h1, h2]
  · rintro rfl
    cases p <;> cases w <;> cases ls <;> cases dc <;> rfl
  · intro h
    refine ⟨?_, rfl⟩
    have hrw : (analyzeNotify ⟨c, p, w, ls, dc⟩ emotion).sendFailureShown =
        !(analyzeNotify ⟨c, p, w, ls, dc⟩ emotion).sent := rfl
    rw [hrw, h]
    rfl

/-- C8 witness: with the connection up but the publish call failing and the
emotion fear, the command is D, the result block still shows the emotion,
and the failure is reported. -/
theorem c8_witness :
    (analyzeNotify ⟨none, some "timeout", none, none, none⟩ "fear").mqttCmd = "D" ∧
    (analyzeNotify ⟨none, some "timeout", none, none, none⟩ "fear").emotionShown =
      some "fear" :=
  ⟨(c8_notifier ⟨none, some "timeout", none, none, none⟩ "fear").2.1 rfl,
   (c8_notifier ⟨none, some "timeout", none, none, none⟩ "fear").2.2.2.2.2.1⟩

/-- C10: send_to_wokwi is total, with all client operations inside its try
block (the Bool-valued embedding has no exception channel), and it returns
True exactly when connect, publish, the acknowledgment wait, loop_stop and
disconnect all complete; on any error it returns False and reports the
error. -/
theorem c10_send_total (env : MqttEnv) (command : String) :
    ((send_to_wokwi env command).returned = true ↔
      env.connectErr = none ∧ env.publishErr = none ∧ env.waitErr = none ∧
      env.loopStopErr = none ∧ env.disconnectErr = none) ∧
    ((send_to_wokwi env command).returned = false →
      (send_to_wokwi env command).errorsShown ≠ []) := by
  obtain ⟨c, p, w, ls, dc⟩ := env
  cases c <;> cases p <;> cases w <;> cases ls <;> cases dc <;>
    simp [send_to_wokwi]

/-- C10 witness: a run in which every client operation completes returns
True. -/
theorem c10_witness :
    (send_to_wokwi ⟨none, none, none, none, none⟩ "S").returned = true :=
  (c10_send_total ⟨none, none, none, none, none⟩ "S").1.mpr
    ⟨rfl, rfl, rfl, rfl, rfl⟩

/-- C5 (amended): the batch export writes exactly one row per file whose
lowercased name ends in .wav; each row is labelled with the last
underscore-separated component of the name of the directory that contains
the file; ids count up from 1 and times advance by the configured 3-second
interval from the synthetic 09:00:00 start, strictly increasing, provided
the row count stays at most 18000 so the day does not wrap (beyond that the
hour-minute-second time column wraps past midnight, as the counterexample
shows); the output is a function of the tree, hence deterministic given the
sorted listing. -/
theorem c5_batch_export (d : DirTree) (i j : Nat) (p : PyStr × PyStr)
    (hij : i < j) (hj : j < (exportRows d).length)
    (hbound : (exportRows d).length ≤ 18000)
    (hp : ((walk d).filter (fun q => wavCheck q.2)).get? i = some p) :
    (exportRows d).length = ((walk d).filter (fun q => wavCheck q.2)).length ∧
    (exportRows d).get? i = some ⟨1 + i, START_TIME + TIME_GAP * i, emotionOf p.1⟩ ∧
    (timesOf d).get? j = some (START_TIME + TIME_GAP * j) ∧
    START_TIME + TIME_GAP * i < START_TIME + TIME_GAP * j := by
  have hrw := exportRows_eq d
  have hlen : (exportRows d).length = ((walk d).filter (fun q => wavCheck q.2)).length := by
    rw [hrw, length_rowsSeq]
  have hjM : j < ((walk d).filter (fun q => wavCheck q.2)).length := hlen ▸ hj
  have hjb : j ≤ 17999 := by omega
  have hib : i ≤ 17998 := by omega
  refine ⟨hlen, ?_, ?_, ?_⟩
  · have hg := rowsSeq_get? ((walk d).filter (fun q => wavCheck q.2)) 1 START_TIME i p hp
    have hmod : (START_TIME + TIME_GAP * i) % 86400 = START_TIME + TIME_GAP * i := by
      apply Nat.mod_eq_of_lt
      simp only [START_TIME, TIME_GAP]
      omega
    rw [hrw, hg, hmod]
  · have hg := rowsSeq_time_get? ((walk d).filter (fun q => wavCheck q.2)) 1 START_TIME j hjM
    have hmod : (START_TIME + TIME_GAP * j) % 86400 = START_TIME + TIME_GAP * j := by
      apply Nat.mod_eq_of_lt
      simp only [START_TIME, TIME_GAP]
      omega
    rw [timesOf, hrw, hg, hmod]
  · simp only [START_TIME, TIME_GAP]
    omega

/-- A small directory tree for the export witness: one .wav file at the root
and one inside an emotion-labelled subfolder. -/
def c5WitnessDir : DirTree :=
  .mk "archive".data ["b.wav".data] [.mk "oaf_sad".data ["a.wav".data] []]

/-- C5 witness: instantiation of the amended export theorem at the small
two-file tree, rows 0 and 1. -/
theorem c5_witness :
    ((walk c5WitnessDir).filter (fun q => wavCheck q.2)).get? 0 =
      some ("archive".data, "b.wav".data) ∧
    (exportRows c5WitnessDir).get? 0 =
      some ⟨1 + 0, START_TIME + TIME_GAP * 0, emotionOf "archive".data⟩ :=
  ⟨by decide,
   (c5_batch_export c5WitnessDir 0 1 ("archive".data, "b.wav".data)
      (by decide) (by decide) (by decide) (by decide)).2.1⟩

/-- A directory tree with 18001 .wav files in one emotion-labelled subfolder:
enough rows for the hour-minute-second time column to wrap past midnight. -/
def cexFiles : List PyStr :=
  (List.range 18001).map (fun i => List.replicate i 'a' ++ ".wav".data)

/-- The counterexample tree for the export timestamps. -/
def cexDir : DirTree := .mk "archive".data [] [.mk "oaf_happy".data cexFiles []]

lemma sortTree_cexDir :
    sortTree cexDir =
      .mk "archive".data [] [.mk "oaf_happy".data (sortBy strLE cexFiles) []] := rfl

lemma walkPre_node (n sn : PyStr) (fs : List PyStr) :
    walkPre (.mk n [] [.mk sn fs []]) = fs.map (fun f => (sn, f)) := by
  simp only [walkPre, walkPreList, List.map_nil, List.nil_append, List.append_nil]

lemma walk_cexDir :
    walk cexDir = (sortBy strLE cexFiles).map (fun f => ("oaf_happy".data, f)) := by
  show walkPre (sortTree cexDir) = _
  rw [sortTree_cexDir, walkPre_node]

lemma cex_all_wav : ∀ q ∈ walk cexDir, wavCheck q.2 = true := by
  intro q hq
  rw [walk_cexDir] at hq
  rcases List.mem_map.mp hq with ⟨f, hf, rfl⟩
  rw [mem_sortBy] at hf
  rcases List.mem_map.mp hf with ⟨i, hi, rfl⟩
  show wavCheck (List.replicate i 'a' ++ ".wav".data) = true
  unfold wavCheck
  rw [List.map_append]
  have hwav : (".wav".data.map Char.toLower) = ".wav".data := by decide
  rw [hwav]
  exact decide_eq_true (List.suffix_append _ _)

lemma cex_filter :
    (walk cexDir).filter (fun q => wavCheck q.2) = walk cexDir :=
  List.filter_eq_self.mpr cex_all_wav

lemma cex_walk_length : (walk cexDir).length = 18001 := by
  rw [walk_cexDir, List.length_map, length_sortBy]
  unfold cexFiles
  rw [List.length_map, List.length_range]

lemma timesOf_cex_get (k : Nat) (hk : k < 18001) :
    (timesOf cexDir).get? k = some ((START_TIME + TIME_GAP * k) % 86400) := by
  rw [timesOf, exportRows_eq, cex_filter]
  exact rowsSeq_time_get? (walk cexDir) 1 START_TIME k (by rw [cex_walk_length]; exact hk)

lemma timesOf_cex_length : (timesOf cexDir).length = 18001 := by
  rw [timesOf, List.length_map, exportRows_eq, length_rowsSeq, cex_filter, cex_walk_length]

lemma chain'_get?_lt : ∀ (l : List Nat) (i a b : Nat), List.Chain' (· < ·) l →
    l.get? i = some a → l.get? (i + 1) = some b → a < b := by
  intro l
  induction l with
  | nil =>
    intro i a b _ h
    cases h
  | cons x xs ih =>
    intro i a b hch ha hb
    cases i with
    | zero =>
      cases xs with
      | nil => cases hb
      | cons y t =>
        simp only [List.get?_cons_zero] at ha
        simp only [List.get?_cons_succ, List.get?_cons_zero] at hb
        injection ha with ha
        injection hb with hb
        subst ha
        subst hb
        exact (List.chain'_cons.mp hch).1
    | succ j =>
      simp only [List.get?_cons_succ] at ha hb
      exact ih j a b hch.tail ha hb

lemma not_chain'_of_get? (l : List Nat) (i a b : Nat) (ha : l.get? i = some a)
    (hb : l.get? (i + 1) = some b) (hba : b ≤ a) : ¬ List.Chain' (· < ·) l := by
  intro hch
  have := chain'_get?_lt l i a b hch ha hb
  omega

/-- C5 counterexample: on the 18001-file tree the time column of row 18000
(id 18001) is 00:00:00, one day having elapsed, while the previous row reads
23:59:57 (second-of-day 86397), so the recorded timestamps are not strictly
increasing. -/
theorem c5_wraparound_counterexample :
    (timesOf cexDir).get? 17999 = some 86397 ∧
    (timesOf cexDir).get? 18000 = some 0 ∧
    ¬ List.Chain' (· < ·) (timesOf cexDir) := by
  have h1 : (timesOf cexDir).get? 17999 = some 86397 := by
    have h := timesOf_cex_get 17999 (by omega)
    rw [h]
    norm_num [START_TIME, TIME_GAP]
  have h2 : (timesOf cexDir).get? 18000 = some 0 := by
    have h := timesOf_cex_get 18000 (by omega)
    rw [h]
    norm_num [START_TIME, TIME_GAP]
  exact ⟨h1, h2, not_chain'_of_get? (timesOf cexDir) 17999 86397 0 h1 h2 (by omega)⟩
